import Mathlib

/-!
# Verification of the Slack notifier message renderer

Shallow embedding of `slack/main.go` from the cloud-build-notifiers
repository: the `jsonEscape` template helper, the build-status → attachment
color classification, `writeMessage` and `SendNotification`.

External collaborators (the `text/template` engine, `slack.Blocks`
JSON unmarshalling, `notifiers.AddUTMParams`, the CEL event filter, the
binding resolver and the webhook transport) are passed to the embedded
functions as explicit parameters, so that the control flow of the source
— which is what the claims are about — is modelled exactly while the
collaborators stay opaque.

Go byte strings are modelled as Lean `String`s (sequences of Unicode
scalar values); byte-level slicing in the source touches only ASCII
delimiters at the places embedded here, where the two views coincide.
-/

namespace SlackNotifier

/-! ## Build status and the color switch

`cbpb.Build_Status` from the Cloud Build protos: the enumeration the
`switch build.Status` in `writeMessage` (main.go:144-151) ranges over. -/

inductive BuildStatus
  | STATUS_UNKNOWN
  | PENDING
  | QUEUED
  | WORKING
  | SUCCESS
  | FAILURE
  | INTERNAL_ERROR
  | TIMEOUT
  | CANCELLED
  | EXPIRED
  deriving DecidableEq, Repr

/-- The `switch build.Status` of `writeMessage` (main.go:144-151):
`SUCCESS` → `"#22bb33"`; `FAILURE`, `INTERNAL_ERROR`, `TIMEOUT` →
`"#bb2124"`; `default` → `"#f0ad4e"`. -/
def statusColor : BuildStatus → String
  | .SUCCESS => "#22bb33"
  | .FAILURE => "#bb2124"
  | .INTERNAL_ERROR => "#bb2124"
  | .TIMEOUT => "#bb2124"
  | _ => "#f0ad4e"

/-! ## The `jsonEscape` template helper (main.go:74-83)

`jsonEscape` marshals its string argument with `encoding/json` and strips
the surrounding quotes; if marshalling fails it returns the argument
unchanged.  `goMarshalString` embeds the string case of `json.Marshal`
(`encoding/json.appendString` with HTML escaping on, as `json.Marshal`
uses): `"`, `\` escaped with a backslash, `\n`, `\r`, `\t` by name,
other control characters as `\u00XX`, the HTML-sensitive `<`, `>`, `&`
and the line separators U+2028/U+2029 as `\uXXXX` with lowercase hex
digits, everything else verbatim. -/

/-- Lowercase hexadecimal digit, as used by `encoding/json` (`"0123456789abcdef"`). -/
def hexDigit (n : Nat) : Char :=
  if n < 10 then Char.ofNat (48 + n) else Char.ofNat (87 + n)

/-- Escape of a single character inside a `json.Marshal`led Go string. -/
def escapeChar (c : Char) : List Char :=
  if c = '"' then ['\\', '"']
  else if c = '\\' then ['\\', '\\']
  else if c = '\n' then ['\\', 'n']
  else if c = '\r' then ['\\', 'r']
  else if c = '\t' then ['\\', 't']
  else if c.toNat < 0x20 ∨ c = '<' ∨ c = '>' ∨ c = '&'
       ∨ c.toNat = 0x2028 ∨ c.toNat = 0x2029 then
    ['\\', 'u', hexDigit (c.toNat / 4096 % 16), hexDigit (c.toNat / 256 % 16),
     hexDigit (c.toNat / 16 % 16), hexDigit (c.toNat % 16)]
  else [c]

def escapeList : List Char → List Char
  | [] => []
  | c :: t => escapeChar c ++ escapeList t

/-- `json.Marshal` on a Go string: a double-quoted, escaped string literal. -/
def goMarshalString (s : String) : String :=
  "\"" ++ String.mk (escapeList s.data) ++ "\""

/-- The body of the `jsonEscape` closure (main.go:74-83), with the
marshalling step as an explicit parameter so that its error branch is
expressible: `b, err := json.Marshal(s); if err != nil { return s };
return string(b[1 : len(b)-1])`. -/
def jsonEscapeGen (marshal : String → Except String String) (s : String) : String :=
  match marshal s with
  | .error _ => s
  | .ok b => String.mk (b.data.drop 1).dropLast

/-- `jsonEscape` as installed in the block-kit `FuncMap` (main.go:74-83),
with the actual `json.Marshal` string marshalling (which is total). -/
def jsonEscape (s : String) : String :=
  jsonEscapeGen (fun t => .ok (goMarshalString t)) s

theorem jsonEscape_eq_escapeList (s : String) :
    jsonEscape s = String.mk (escapeList s.data) := by
  simp only [jsonEscape, jsonEscapeGen, goMarshalString]
  congr 1
  simp [String.data_append]

/-! ## A JSON string-literal parser (RFC 8259 §7)

Independent of the escaper above: used to state that escaping round-trips
through JSON parsing.  `parseStringBody` consumes the characters of a
string literal after the opening quote, up to and including the closing
quote, handling the named escapes, `\uXXXX` (with surrogate pairs), and
rejecting raw control characters and unterminated literals. -/

def hexVal (c : Char) : Option Nat :=
  if '0' ≤ c ∧ c ≤ '9' then some (c.toNat - 48)
  else if 'a' ≤ c ∧ c ≤ 'f' then some (c.toNat - 87)
  else if 'A' ≤ c ∧ c ≤ 'F' then some (c.toNat - 55)
  else none

/-- Four hexadecimal digits, as in a `\uXXXX` escape. -/
def parseHex4 : List Char → Option (Nat × List Char)
  | h1 :: h2 :: h3 :: h4 :: t =>
    (hexVal h1).bind fun a => (hexVal h2).bind fun b => (hexVal h3).bind fun c =>
      (hexVal h4).map fun d => (a * 4096 + b * 256 + c * 16 + d, t)
  | _ => none

/-- Decode one escape sequence (the part after the backslash): the named
escapes of RFC 8259 and `\uXXXX`, consuming a low surrogate after a high
one. -/
def parseEscaped (e : Char) (t : List Char) : Option (Char × List Char) :=
  if e = '"' then some ('"', t)
  else if e = '\\' then some ('\\', t)
  else if e = '/' then some ('/', t)
  else if e = 'b' then some (Char.ofNat 8, t)
  else if e = 'f' then some (Char.ofNat 12, t)
  else if e = 'n' then some ('\n', t)
  else if e = 'r' then some ('\r', t)
  else if e = 't' then some ('\t', t)
  else if e = 'u' then
    match parseHex4 t with
    | none => none
    | some (n, t2) =>
      if 0xD800 ≤ n ∧ n < 0xDC00 then
        match t2 with
        | e1 :: e2 :: t3 =>
          if e1 = '\\' ∧ e2 = 'u' then
            match parseHex4 t3 with
            | none => none
            | some (m, t4) =>
              if 0xDC00 ≤ m ∧ m < 0xE000 then
                some (Char.ofNat (0x10000 + (n - 0xD800) * 1024 + (m - 0xDC00)), t4)
              else none
          else none
        | _ => none
      else if 0xDC00 ≤ n ∧ n < 0xE000 then none
      else some (Char.ofNat n, t2)
  else none

theorem parseHex4_tail {h1 h2 h3 h4 : Char} {t : List Char} {n : Nat} {t2 : List Char}
    (h : parseHex4 (h1 :: h2 :: h3 :: h4 :: t) = some (n, t2)) : t2 = t := by
  simp only [parseHex4, Option.bind_eq_some, Option.map_eq_some'] at h
  obtain ⟨a, _, b, _, c, _, d, _, he⟩ := h
  injection he with hn ht
  exact ht.symm

theorem parseHex4_length {t : List Char} {n : Nat} {t2 : List Char}
    (h : parseHex4 t = some (n, t2)) : t2.length ≤ t.length := by
  rcases t with _ | ⟨c1, _ | ⟨c2, _ | ⟨c3, _ | ⟨c4, rest⟩⟩⟩⟩
  · simp [parseHex4] at h
  · simp [parseHex4] at h
  · simp [parseHex4] at h
  · simp [parseHex4] at h
  · have := parseHex4_tail h
    subst this
    simp only [List.length_cons]
    omega

theorem parseEscaped_length {e : Char} {t : List Char} {d : Char} {t2 : List Char}
    (h : parseEscaped e t = some (d, t2)) : t2.length ≤ t.length := by
  unfold parseEscaped at h
  by_cases h1 : e = '"'
  · rw [if_pos h1] at h; injection h with h'; injection h' with ha hb; subst hb
    exact Nat.le_refl _
  rw [if_neg h1] at h
  by_cases h2 : e = '\\'
  · rw [if_pos h2] at h; injection h with h'; injection h' with ha hb; subst hb
    exact Nat.le_refl _
  rw [if_neg h2] at h
  by_cases h3 : e = '/'
  · rw [if_pos h3] at h; injection h with h'; injection h' with ha hb; subst hb
    exact Nat.le_refl _
  rw [if_neg h3] at h
  by_cases h4 : e = 'b'
  · rw [if_pos h4] at h; injection h with h'; injection h' with ha hb; subst hb
    exact Nat.le_refl _
  rw [if_neg h4] at h
  by_cases h5 : e = 'f'
  · rw [if_pos h5] at h; injection h with h'; injection h' with ha hb; subst hb
    exact Nat.le_refl _
  rw [if_neg h5] at h
  by_cases h6 : e = 'n'
  · rw [if_pos h6] at h; injection h with h'; injection h' with ha hb; subst hb
    exact Nat.le_refl _
  rw [if_neg h6] at h
  by_cases h7 : e = 'r'
  · rw [if_pos h7] at h; injection h with h'; injection h' with ha hb; subst hb
    exact Nat.le_refl _
  rw [if_neg h7] at h
  by_cases h8 : e = 't'
  · rw [if_pos h8] at h; injection h with h'; injection h' with ha hb; subst hb
    exact Nat.le_refl _
  rw [if_neg h8] at h
  by_cases h9 : e = 'u'
  case neg => rw [if_neg h9] at h; exact Option.noConfusion h
  rw [if_pos h9] at h
  cases hp : parseHex4 t with
  | none => rw [hp] at h; exact Option.noConfusion h
  | some p =>
    obtain ⟨n, trest⟩ := p
    simp only [hp] at h
    have hlen := parseHex4_length hp
    by_cases hs1 : 0xD800 ≤ n ∧ n < 0xDC00
    · rw [if_pos hs1] at h
      rcases trest with _ | ⟨e1, _ | ⟨e2, t3⟩⟩
      · exact Option.noConfusion h
      · exact Option.noConfusion h
      · simp only at h
        by_cases hpair : e1 = '\\' ∧ e2 = 'u'
        case neg => rw [if_neg hpair] at h; exact Option.noConfusion h
        rw [if_pos hpair] at h
        cases hp2 : parseHex4 t3 with
        | none => rw [hp2] at h; exact Option.noConfusion h
        | some q =>
          obtain ⟨m, t4⟩ := q
          simp only [hp2] at h
          have hlen2 := parseHex4_length hp2
          by_cases hs3 : 0xDC00 ≤ m ∧ m < 0xE000
          case neg => rw [if_neg hs3] at h; exact Option.noConfusion h
          rw [if_pos hs3] at h
          injection h with h'
          injection h' with ha hb
          subst hb
          simp only [List.length_cons] at hlen
          omega
    · rw [if_neg hs1] at h
      by_cases hs2 : 0xDC00 ≤ n ∧ n < 0xE000
      · rw [if_pos hs2] at h; exact Option.noConfusion h
      · rw [if_neg hs2] at h
        injection h with h'
        injection h' with ha hb
        subst hb
        exact hlen

/-- Prepend a decoded character to the result of parsing the rest of a
string-literal body. -/
def consBody (c : Char) : Option (List Char × List Char) → Option (List Char × List Char)
  | none => none
  | some (cs, rem) => some (c :: cs, rem)

/-- Parse the body of a JSON string literal: returns the decoded
characters and the input remaining after the closing quote. -/
def parseStringBody (l : List Char) : Option (List Char × List Char) :=
  match l with
  | [] => none
  | c :: rest =>
    if c = '"' then some ([], rest)
    else if c = '\\' then
      match rest with
      | [] => none
      | e :: t =>
        match hpe : parseEscaped e t with
        | none => none
        | some (d, t2) => consBody d (parseStringBody t2)
    else if c.toNat < 0x20 then none
    else consBody c (parseStringBody rest)
termination_by l.length
decreasing_by
  · have h := parseEscaped_length hpe
    simp only [List.length_cons]
    omega
  · simp only [List.length_cons]
    omega

/-- Parse a complete JSON string literal: an opening quote, a body, a
closing quote, and nothing after it. -/
def parseJSONString (s : String) : Option String :=
  match s.data with
  | '"' :: rest =>
    match parseStringBody rest with
    | some (content, []) => some (String.mk content)
    | _ => none
  | _ => none

theorem hexVal_hexDigit (n : Nat) (h : n < 16) : hexVal (hexDigit n) = some n := by
  interval_cases n <;> decide

theorem parseStringBody_quote (rest : List Char) :
    parseStringBody ('"' :: rest) = some ([], rest) := by
  rw [parseStringBody.eq_def]
  simp

theorem parseStringBody_backslash (e : Char) (t : List Char) (d : Char) (t2 : List Char)
    (hesc : parseEscaped e t = some (d, t2)) :
    parseStringBody ('\\' :: e :: t) = consBody d (parseStringBody t2) := by
  rw [parseStringBody]
  rw [if_neg (by decide), if_pos rfl]
  split
  · rename_i heq
    rw [hesc] at heq
    exact Option.noConfusion heq
  · rename_i d' t2' heq
    rw [hesc] at heq
    injection heq with heq'
    injection heq' with hd ht
    subst hd
    subst ht
    rfl

theorem parseStringBody_plain (c : Char) (rest : List Char) (h1 : ¬ c = '"')
    (h2 : ¬ c = '\\') (h3 : ¬ c.toNat < 0x20) :
    parseStringBody (c :: rest) = consBody c (parseStringBody rest) := by
  rw [parseStringBody.eq_def]
  simp only
  rw [if_neg h1, if_neg h2, if_neg h3]

theorem parseStringBody_escapeChar (c : Char) (rest : List Char) :
    parseStringBody (escapeChar c ++ rest) = consBody c (parseStringBody rest) := by
  unfold escapeChar
  split_ifs with h1 h2 h3 h4 h5 h6
  · subst h1
    simp only [List.cons_append, List.nil_append]
    exact parseStringBody_backslash _ _ _ _ (by simp [parseEscaped])
  · subst h2
    simp only [List.cons_append, List.nil_append]
    exact parseStringBody_backslash _ _ _ _ (by simp [parseEscaped])
  · subst h3
    simp only [List.cons_append, List.nil_append]
    exact parseStringBody_backslash _ _ _ _ (by simp [parseEscaped])
  · subst h4
    simp only [List.cons_append, List.nil_append]
    exact parseStringBody_backslash _ _ _ _ (by simp [parseEscaped])
  · subst h5
    simp only [List.cons_append, List.nil_append]
    exact parseStringBody_backslash _ _ _ _ (by simp [parseEscaped])
  · have hv : c.toNat < 0xD800 := by
      rcases h6 with h | h | h | h | h | h
      all_goals first
        | omega
        | (subst h; decide)
    have e1 : hexVal (hexDigit (c.toNat / 4096 % 16)) = some (c.toNat / 4096 % 16) :=
      hexVal_hexDigit _ (Nat.mod_lt _ (by norm_num))
    have e2 : hexVal (hexDigit (c.toNat / 256 % 16)) = some (c.toNat / 256 % 16) :=
      hexVal_hexDigit _ (Nat.mod_lt _ (by norm_num))
    have e3 : hexVal (hexDigit (c.toNat / 16 % 16)) = some (c.toNat / 16 % 16) :=
      hexVal_hexDigit _ (Nat.mod_lt _ (by norm_num))
    have e4 : hexVal (hexDigit (c.toNat % 16)) = some (c.toNat % 16) :=
      hexVal_hexDigit _ (Nat.mod_lt _ (by norm_num))
    have hp : parseHex4 (hexDigit (c.toNat / 4096 % 16) :: hexDigit (c.toNat / 256 % 16)
        :: hexDigit (c.toNat / 16 % 16) :: hexDigit (c.toNat % 16) :: rest)
        = some (c.toNat, rest) := by
      simp only [parseHex4, e1, e2, e3, e4, Option.some_bind, Option.map_some',
        Option.some.injEq, Prod.mk.injEq]
      exact ⟨by omega, trivial⟩
    have hu : parseEscaped 'u' (hexDigit (c.toNat / 4096 % 16) :: hexDigit (c.toNat / 256 % 16)
        :: hexDigit (c.toNat / 16 % 16) :: hexDigit (c.toNat % 16) :: rest)
        = some (c, rest) := by
      unfold parseEscaped
      rw [if_neg (by decide), if_neg (by decide), if_neg (by decide), if_neg (by decide),
          if_neg (by decide), if_neg (by decide), if_neg (by decide), if_neg (by decide),
          if_pos rfl]
      simp only [hp]
      rw [if_neg (by omega), if_neg (by omega), Char.ofNat_toNat]
    simp only [List.cons_append, List.nil_append]
    exact parseStringBody_backslash _ _ _ _ hu
  · push_neg at h6
    simp only [List.cons_append, List.nil_append]
    exact parseStringBody_plain c rest h1 h2 (by omega)

theorem parseStringBody_escapeList (l r : List Char) :
    parseStringBody (escapeList l ++ '"' :: r) = some (l, r) := by
  induction l with
  | nil =>
    rw [escapeList, List.nil_append]
    exact parseStringBody_quote r
  | cons c t ih =>
    rw [escapeList, List.append_assoc, parseStringBody_escapeChar, ih]
    rfl

/-- C7: for every input string — including strings containing double
quotes, backslashes and newlines — wrapping the output of `jsonEscape`
(main.go:74-83) in double quotes yields a JSON string literal that parses
back to exactly the original string. -/
theorem jsonEscape_parse_roundtrip (s : String) :
    parseJSONString ("\"" ++ jsonEscape s ++ "\"") = some s := by
  rw [jsonEscape_eq_escapeList]
  have hdata : ("\"" ++ String.mk (escapeList s.data) ++ "\"").data
      = '"' :: (escapeList s.data ++ '"' :: []) := by
    simp [String.data_append]
  unfold parseJSONString
  rw [hdata]
  simp only [parseStringBody_escapeList]

/-- C2: the attachment color is a three-way classification of the build
status (main.go:144-151): `SUCCESS` gives the success color `"#22bb33"`;
`FAILURE`, `INTERNAL_ERROR` and `TIMEOUT` give the failure color
`"#bb2124"`; every other status — pending, queued, working, cancelled,
expired, unknown/unset — falls into the `default` branch and gives the
neutral color `"#f0ad4e"`; the switch is total, so no status value causes
an error. -/
theorem statusColor_classification (s : BuildStatus) :
    statusColor s =
      if s = .SUCCESS then "#22bb33"
      else if s = .FAILURE ∨ s = .INTERNAL_ERROR ∨ s = .TIMEOUT then "#bb2124"
      else "#f0ad4e" := by
  cases s <;> rfl

/-! ## `writeMessage` and `SendNotification` (main.go:108-183)

The build record and template view carry the fields `writeMessage` reads.
The external collaborators — `notifiers.AddUTMParams`, the parsed
`text/template` executions, and `slack.Blocks.UnmarshalJSON` — are
supplied as opaque functions in a `WriteMessageEnv`, so the embedded
functions reproduce exactly the control flow of the source while
quantifying over every possible collaborator behavior.  `writeMessage`
returns its Go result together with the list of `log.Errorf` lines it
emitted. -/

structure Build where
  id : String
  status : BuildStatus
  logUrl : String
  projectId : String
  substitutions : List (String × String)

/-- The `notifiers.TemplateView` assembled in `SendNotification`
(main.go:121-124): the build plus the resolved parameter bindings. -/
structure TemplateView where
  build : Build
  params : List (String × String)

/-- One `slack.Attachment` as `writeMessage` builds it (main.go:171):
a color and the parsed blocks; the block type is opaque here. -/
structure Attachment (β : Type) where
  color : String
  blocks : β

/-- The `slack.WebhookMessage` payload: `Text` has Go zero value `""`
(serialized with `omitempty`, so empty means the field is absent). -/
structure WebhookMessage (β : Type) where
  text : String := ""
  attachments : List (Attachment β)

/-- The collaborators `writeMessage` calls, as opaque functions:
`addUTMParams` is `notifiers.AddUTMParams (·, ChatMedium)`;
`execBlockTmpl` is `s.tmpl.Execute`; `execTextTmpl` is `s.textTmpl`
(`none` models the nil pointer when no `messageTemplate` param was
configured); `unmarshalBlocks` is `slack.Blocks.UnmarshalJSON`. -/
structure WriteMessageEnv (β : Type) where
  addUTMParams : String → Except String String
  execBlockTmpl : TemplateView → Except String String
  execTextTmpl : Option (TemplateView → Except String String)
  unmarshalBlocks : String → Except String β

/-- Truncation applied before logging the offending rendered JSON
(main.go:163-166): `if len(jsonStr) > 500 { jsonStr = jsonStr[:500] + "..." }`.
Go slices bytes; the delimiters are counted here per character, the two
views agreeing on ASCII. -/
def truncateJSONForLog (jsonStr : String) : String :=
  if jsonStr.length > 500 then String.mk (jsonStr.data.take 500) ++ "..." else jsonStr

/-- The `writeMessage` method (main.go:135-183).  Returns the Go return
value paired with the `log.Errorf` lines emitted. -/
def writeMessage {β : Type} (env : WriteMessageEnv β) (view : TemplateView) :
    Except String (WebhookMessage β) × List String :=
  match env.addUTMParams view.build.logUrl with
  | .error e => (.error ("failed to add UTM params: " ++ e), [])
  | .ok _ =>
    let clr := statusColor view.build.status
    match env.execBlockTmpl view with
    | .error e => (.error e, [])
    | .ok rendered =>
      match env.unmarshalBlocks rendered with
      | .error e =>
        (.error ("failed to unmarshal templating JSON: " ++ e),
         ["failed to unmarshal templating JSON. JSON (first 500 chars): "
           ++ truncateJSONForLog rendered])
      | .ok blocks =>
        let msg : WebhookMessage β :=
          { attachments := [{ color := clr, blocks := blocks }] }
        match env.execTextTmpl with
        | none => (.ok msg, [])
        | some exec =>
          match exec view with
          | .error e => (.error ("failed to execute text template: " ++ e), [])
          | .ok t => (.ok { msg with text := t }, [])

/-- The `SendNotification` method (main.go:108-133), with the CEL filter
result, the binding resolution result and the webhook transport as opaque
inputs.  The second component records the payload handed to
`slack.PostWebhook`, `none` when nothing was posted. -/
def sendNotification {β : Type} (filterApply : Bool)
    (resolveBindings : Except String (List (String × String)))
    (env : WriteMessageEnv β) (build : Build)
    (postWebhook : WebhookMessage β → Except String Unit) :
    Except String Unit × Option (WebhookMessage β) :=
  if ¬ filterApply then (.ok (), none)
  else
    match resolveBindings with
    | .error e => (.error ("failed to resolve bindings: " ++ e), none)
    | .ok bindings =>
      match (writeMessage env { build := build, params := bindings }).1 with
      | .error e => (.error ("failed to write Slack message: " ++ e), none)
      | .ok msg => (postWebhook msg, some msg)

/-- Inversion: everything that must have happened when `writeMessage`
returned a payload. -/
theorem writeMessage_ok_inv {β : Type} {env : WriteMessageEnv β} {view : TemplateView}
    {msg : WebhookMessage β} {logs : List String}
    (h : writeMessage env view = (.ok msg, logs)) :
    ∃ u rendered b, env.addUTMParams view.build.logUrl = .ok u
      ∧ env.execBlockTmpl view = .ok rendered
      ∧ env.unmarshalBlocks rendered = .ok b
      ∧ logs = []
      ∧ ((env.execTextTmpl = none
            ∧ msg = { attachments := [{ color := statusColor view.build.status, blocks := b }] })
         ∨ (∃ f t, env.execTextTmpl = some f ∧ f view = .ok t
             ∧ msg = { text := t,
                       attachments := [{ color := statusColor view.build.status, blocks := b }] })) := by
  unfold writeMessage at h
  cases ha : env.addUTMParams view.build.logUrl with
  | error e =>
    simp only [ha] at h
    injection h with h1 h2
    exact Except.noConfusion h1
  | ok u =>
    simp only [ha] at h
    cases hb : env.execBlockTmpl view with
    | error e =>
      simp only [hb] at h
      injection h with h1 h2
      exact Except.noConfusion h1
    | ok rendered =>
      simp only [hb] at h
      cases hc : env.unmarshalBlocks rendered with
      | error e =>
        simp only [hc] at h
        injection h with h1 h2
        exact Except.noConfusion h1
      | ok b =>
        simp only [hc] at h
        cases hd : env.execTextTmpl with
        | none =>
          simp only [hd] at h
          injection h with h1 h2
          injection h1 with h3
          exact ⟨u, rendered, b, rfl, rfl, hc, h2.symm, Or.inl ⟨rfl, h3.symm⟩⟩
        | some f =>
          simp only [hd] at h
          cases he : f view with
          | error e =>
            simp only [he] at h
            injection h with h1 h2
            exact Except.noConfusion h1
          | ok t =>
            simp only [he] at h
            injection h with h1 h2
            injection h1 with h3
            exact ⟨u, rendered, b, rfl, rfl, hc, h2.symm,
              Or.inr ⟨f, t, rfl, he, h3.symm⟩⟩

/-- C5: every invocation of `writeMessage` that returns a payload
produces exactly one attachment — the attachments list has length 1 —
and that attachment carries the color computed from the build status and
the blocks parsed from the rendered block template (main.go:171). -/
theorem writeMessage_single_attachment {β : Type} (env : WriteMessageEnv β)
    (view : TemplateView) (msg : WebhookMessage β) (logs : List String)
    (h : writeMessage env view = (.ok msg, logs)) :
    msg.attachments.length = 1
    ∧ ∃ rendered b, env.execBlockTmpl view = .ok rendered
        ∧ env.unmarshalBlocks rendered = .ok b
        ∧ msg.attachments = [{ color := statusColor view.build.status, blocks := b }] := by
  obtain ⟨u, rendered, b, ha, hb, hc, hlogs, hcase⟩ := writeMessage_ok_inv h
  rcases hcase with ⟨hnone, hmsg⟩ | ⟨f, t, hsome, hok, hmsg⟩ <;>
    subst hmsg <;> exact ⟨rfl, rendered, b, hb, hc, rfl⟩

/-- Example build, view and collaborator environments used by the
witnesses: the block type is instantiated with `Nat`. -/
def buildEx : Build :=
  { id := "111222333", status := .SUCCESS, logUrl := "https://example.com/log",
    projectId := "hello-world-123",
    substitutions := [("_GOOGLE_FUNCTION_TARGET", "helloHttp")] }

def viewEx : TemplateView := { build := buildEx, params := [] }

def envEx : WriteMessageEnv Nat :=
  { addUTMParams := fun u => .ok u
    execBlockTmpl := fun _ => .ok "[]"
    execTextTmpl := none
    unmarshalBlocks := fun _ => .ok 7 }

def msgEx : WebhookMessage Nat :=
  { attachments := [{ color := "#22bb33", blocks := 7 }] }

/-- Witness for C5 at the concrete example environment. -/
theorem writeMessage_single_attachment_witness :
    msgEx.attachments.length = 1
    ∧ ∃ rendered b, envEx.execBlockTmpl viewEx = .ok rendered
        ∧ envEx.unmarshalBlocks rendered = .ok b
        ∧ msgEx.attachments = [{ color := statusColor viewEx.build.status, blocks := b }] :=
  writeMessage_single_attachment envEx viewEx msgEx [] rfl

/-- C4: the payload's text field is empty exactly as the source dictates
(main.go:173-180): with no text template configured the message keeps the
Go zero value `""` (serialized away by `omitempty`); with a text template
configured whose execution succeeds, the text equals the exact rendered
output; and a failing text-template execution fails the whole
`writeMessage` call with a wrapping error. -/
theorem writeMessage_text_contract :
    (∀ (β : Type) (env : WriteMessageEnv β) (view : TemplateView) (msg : WebhookMessage β)
       (logs : List String), env.execTextTmpl = none →
       writeMessage env view = (.ok msg, logs) → msg.text = "")
    ∧ (∀ (β : Type) (env : WriteMessageEnv β) (view : TemplateView) (msg : WebhookMessage β)
       (logs : List String) (f : TemplateView → Except String String) (t : String),
       env.execTextTmpl = some f → f view = .ok t →
       writeMessage env view = (.ok msg, logs) → msg.text = t)
    ∧ (∀ (β : Type) (env : WriteMessageEnv β) (view : TemplateView) (u rendered : String)
       (b : β) (f : TemplateView → Except String String) (e : String),
       env.addUTMParams view.build.logUrl = .ok u →
       env.execBlockTmpl view = .ok rendered →
       env.unmarshalBlocks rendered = .ok b →
       env.execTextTmpl = some f → f view = .error e →
       writeMessage env view = (.error ("failed to execute text template: " ++ e), [])) := by
  refine ⟨?_, ?_, ?_⟩
  · intro β env view msg logs hnone h
    obtain ⟨u, rendered, b, ha, hb, hc, hlogs, hcase⟩ := writeMessage_ok_inv h
    rcases hcase with ⟨_, hmsg⟩ | ⟨f, t, hsome, hok, hmsg⟩
    · subst hmsg; rfl
    · rw [hnone] at hsome; exact Option.noConfusion hsome
  · intro β env view msg logs f t hsome hok h
    obtain ⟨u, rendered, b, ha, hb, hc, hlogs, hcase⟩ := writeMessage_ok_inv h
    rcases hcase with ⟨hnone, hmsg⟩ | ⟨f', t', hsome', hok', hmsg⟩
    · rw [hnone] at hsome; exact Option.noConfusion hsome
    · rw [hsome] at hsome'
      injection hsome' with hf
      subst hf
      rw [hok] at hok'
      injection hok' with ht
      subst ht
      subst hmsg
      rfl
  · intro β env view u rendered b f e ha hb hc hd he
    unfold writeMessage
    simp only [ha, hb, hc, hd, he]

def envTextEx : WriteMessageEnv Nat :=
  { addUTMParams := fun u => .ok u
    execBlockTmpl := fun _ => .ok "[]"
    execTextTmpl := some (fun v => .ok ("Build SUCCESS for project " ++ v.build.projectId))
    unmarshalBlocks := fun _ => .ok 7 }

def msgTextEx : WebhookMessage Nat :=
  { text := "Build SUCCESS for project hello-world-123",
    attachments := [{ color := "#22bb33", blocks := 7 }] }

/-- Witness for C4: the configured text template renders the payload's
text at the concrete example inputs. -/
theorem writeMessage_text_contract_witness :
    msgTextEx.text = "Build SUCCESS for project hello-world-123" :=
  writeMessage_text_contract.2.1 Nat envTextEx viewEx msgTextEx []
    (fun v => .ok ("Build SUCCESS for project " ++ v.build.projectId))
    "Build SUCCESS for project hello-world-123" rfl rfl rfl

/-- C3: when the rendered block-template output fails to unmarshal as
Slack blocks, `writeMessage` aborts with a wrapping error and no payload
(main.go:160-169); the diagnostic logged via `log.Errorf` embeds the
offending rendered text truncated to its first 500 characters — the
second conjunct pins that the logged text starts with exactly that
bounded prefix. -/
theorem writeMessage_unmarshal_failure {β : Type} (env : WriteMessageEnv β)
    (view : TemplateView) (u rendered e : String)
    (ha : env.addUTMParams view.build.logUrl = .ok u)
    (hb : env.execBlockTmpl view = .ok rendered)
    (hc : env.unmarshalBlocks rendered = .error e) :
    writeMessage env view
      = (.error ("failed to unmarshal templating JSON: " ++ e),
         ["failed to unmarshal templating JSON. JSON (first 500 chars): "
           ++ truncateJSONForLog rendered])
    ∧ (truncateJSONForLog rendered).data.take 500 = rendered.data.take 500 := by
  constructor
  · unfold writeMessage
    simp only [ha, hb, hc]
  · unfold truncateJSONForLog
    split_ifs with hlen
    · have hdlen : 500 ≤ rendered.data.length := by
        simp only [String.length] at hlen
        omega
      have hl : (rendered.data.take 500).length = 500 := by
        simp only [List.length_take]
        omega
      rw [String.data_append, List.take_append_eq_append_take, hl]
      simp [List.take_take]
    · rfl

def envBadJSON : WriteMessageEnv Nat :=
  { addUTMParams := fun u => .ok u
    execBlockTmpl := fun _ => .ok "not json"
    execTextTmpl := none
    unmarshalBlocks := fun _ => .error "invalid character" }

/-- Witness for C3 at a concrete environment whose rendered output is not
valid block JSON. -/
theorem writeMessage_unmarshal_failure_witness :
    writeMessage envBadJSON viewEx
      = (.error ("failed to unmarshal templating JSON: " ++ "invalid character"),
         ["failed to unmarshal templating JSON. JSON (first 500 chars): "
           ++ truncateJSONForLog "not json"])
    ∧ (truncateJSONForLog "not json").data.take 500 = ("not json" : String).data.take 500 :=
  writeMessage_unmarshal_failure envBadJSON viewEx "https://example.com/log" "not json"
    "invalid character" rfl rfl rfl

/-- C10: when augmenting the log URL with UTM parameters fails,
`writeMessage` aborts with the wrapping error before any template is
executed and produces no payload (main.go:137-141) — the first conjunct
holds for every template and unmarshal collaborator; and when the
augmentation succeeds its result is discarded: the outcome does not
depend on the returned URL (main.go:137 assigns it to `_`). -/
theorem writeMessage_utm_failure :
    (∀ (β : Type) (env : WriteMessageEnv β) (view : TemplateView) (e : String),
      env.addUTMParams view.build.logUrl = .error e →
      writeMessage env view = (.error ("failed to add UTM params: " ++ e), []))
    ∧ (∀ (β : Type) (env : WriteMessageEnv β) (view : TemplateView) (u u' : String),
      writeMessage { env with addUTMParams := fun _ => .ok u } view
        = writeMessage { env with addUTMParams := fun _ => .ok u' } view) := by
  constructor
  · intro β env view e he
    unfold writeMessage
    simp only [he]
  · intro β env view u u'
    rfl

def envBadURL : WriteMessageEnv Nat :=
  { addUTMParams := fun _ => .error "parse error"
    execBlockTmpl := fun _ => .ok "[]"
    execTextTmpl := none
    unmarshalBlocks := fun _ => .ok 7 }

/-- Witness for C10 at a concrete environment whose URL augmentation
fails. -/
theorem writeMessage_utm_failure_witness :
    writeMessage envBadURL viewEx
      = (.error ("failed to add UTM params: " ++ "parse error"), []) :=
  writeMessage_utm_failure.1 Nat envBadURL viewEx "parse error" rfl

/-- C6: when the event filter evaluates false, `SendNotification` returns
success (nil error) and nothing is rendered or posted (main.go:110-112):
the result is the same for every binding resolver, every renderer
environment and every webhook transport, so no rendering can have
occurred and no payload is produced — a silent skip, not an error. -/
theorem sendNotification_filter_false (β : Type)
    (resolveBindings : Except String (List (String × String)))
    (env : WriteMessageEnv β) (build : Build)
    (postWebhook : WebhookMessage β → Except String Unit) :
    sendNotification false resolveBindings env build postWebhook = (.ok (), none) := rfl

/-! ## The error branch of `jsonEscape` (C9)

`json.Marshal` on a Go string value never returns an error (a string is
always marshallable; invalid UTF-8 is replaced, not rejected), so the
`if err != nil` branch in main.go:77-80 is unreachable with the real
marshaller.  The branch itself is embedded in `jsonEscapeGen`, with the
marshalling step a parameter, and the claim is settled over that
parameter. -/

/-- C9: on every input where the JSON-marshal step inside `jsonEscape`
fails, the helper swallows the error and returns the original input
string unescaped (main.go:76-80). -/
theorem jsonEscapeGen_marshal_error (marshal : String → Except String String)
    (s e : String) (h : marshal s = .error e) : jsonEscapeGen marshal s = s := by
  unfold jsonEscapeGen
  simp only [h]

/-- Witness for C9 with a concrete failing marshalling step. -/
theorem jsonEscapeGen_marshal_error_witness :
    jsonEscapeGen (fun _ => .error "marshal failure") "a\"b" = "a\"b" :=
  jsonEscapeGen_marshal_error (fun _ => .error "marshal failure") "a\"b" "marshal failure" rfl

/-! ## Calling `jsonEscape` from a template (C1)

The production `jsonEscape` (main.go:74-83) is registered in the FuncMap
with Go type `func(s string) string`.  `text/template` type-checks every
argument against the declared parameter type when the template executes:
a string value is passed to the body, while a nil value or a value of
non-string type is rejected with a template execution error — no
coercion to a display form happens for this function.  (The differently
written `jsonEscape` helper local to `main_test.go` accepts an arbitrary
value, maps nil to the empty string and formats non-strings with
`fmt.Sprintf`; the production FuncMap entry does not.)  An absent
substitution key is a separate case: indexing Go's `map[string]string`
yields the zero value `""`, a string, which the function accepts. -/

inductive GoTemplateValue
  | vNil
  | vString (s : String)
  | vInt (n : Int)
  | vBool (b : Bool)
  deriving DecidableEq

/-- Invocation of the production `jsonEscape` FuncMap entry on a
template value, following the text/template argument typing rules for a
function of Go type `func(s string) string`. -/
def callJsonEscape : GoTemplateValue → Except String String
  | .vString s => .ok (jsonEscape s)
  | .vNil => .error "invalid value; expected string"
  | .vInt _ => .error "wrong type for value; expected string"
  | .vBool _ => .error "wrong type for value; expected string"

/-- C1: evaluation at the failing inputs.  Contrary to the claim, the
production `jsonEscape` accepts only string arguments: a nil value is a
template execution error, not the empty string, and a non-string value
is likewise rejected rather than coerced to its display form.  The
absent-substitution case does hold: the Go zero-value empty string
escapes to the empty string. -/
theorem callJsonEscape_nil_behavior :
    callJsonEscape .vNil = .error "invalid value; expected string"
    ∧ callJsonEscape .vNil ≠ .ok ""
    ∧ callJsonEscape (.vInt 5) = .error "wrong type for value; expected string"
    ∧ callJsonEscape (.vString "") = .ok "" :=
  ⟨rfl, fun h => Except.noConfusion h, rfl, rfl⟩

/-! ## Substitution lookup during block-template rendering (C8) -/

/-- Modelled from the spec: the template engine's dynamic lookup into the
substitutions mapping.  The engine (`text/template`) and the
`map[string]string` it indexes live in the Go standard library, the
notifiers support library and the generated cloudbuild proto — outside
the sources here.  Per the spec the lookup returns "an empty value when
absent, never failing"; Go map indexing yields the zero value `""` for a
missing key. -/
def lookupSubstitution (subs : List (String × String)) (key : String) : String :=
  match subs.find? (fun p => p.1 == key) with
  | some p => p.2
  | none => ""

/-- Modelled from the spec: the fragment of the template language a block
template uses — literal text and substitution references. -/
inductive TemplateNode
  | lit (s : String)
  | subst (key : String)

/-- Modelled from the spec: rendering a block template against the view —
a total function, so rendering cannot fail. -/
def renderTemplate (view : TemplateView) : List TemplateNode → String
  | [] => ""
  | .lit s :: rest => s ++ renderTemplate view rest
  | .subst k :: rest =>
    lookupSubstitution view.build.substitutions k ++ renderTemplate view rest

theorem renderTemplate_append (view : TemplateView) (xs ys : List TemplateNode) :
    renderTemplate view (xs ++ ys)
      = renderTemplate view xs ++ renderTemplate view ys := by
  induction xs with
  | nil => simp [renderTemplate]
  | cons x t ih =>
    cases x <;> simp [renderTemplate, ih, String.append_assoc]

/-- C8: a block template that references a substitution key absent from
the build's substitutions renders with the empty value substituted for
the reference, and rendering does not fail — the reference contributes
nothing to the output. -/
theorem renderTemplate_missing_key (view : TemplateView) (key : String)
    (h : view.build.substitutions.find? (fun p => p.1 == key) = none)
    (pre post : List TemplateNode) :
    lookupSubstitution view.build.substitutions key = ""
    ∧ renderTemplate view (pre ++ TemplateNode.subst key :: post)
      = renderTemplate view pre ++ renderTemplate view post := by
  have hl : lookupSubstitution view.build.substitutions key = "" := by
    unfold lookupSubstitution
    simp only [h]
  have hcons : renderTemplate view (TemplateNode.subst key :: post)
      = lookupSubstitution view.build.substitutions key ++ renderTemplate view post := rfl
  refine ⟨hl, ?_⟩
  rw [renderTemplate_append, hcons, hl]
  rfl

/-- Witness for C8 at the concrete example build, whose substitutions do
not contain the referenced key. -/
theorem renderTemplate_missing_key_witness :
    lookupSubstitution viewEx.build.substitutions "_COMMIT_MESSAGE" = ""
    ∧ renderTemplate viewEx
        ([TemplateNode.lit "*Commit Message:*"] ++ TemplateNode.subst "_COMMIT_MESSAGE" :: [])
      = renderTemplate viewEx [TemplateNode.lit "*Commit Message:*"]
        ++ renderTemplate viewEx [] :=
  renderTemplate_missing_key viewEx "_COMMIT_MESSAGE" rfl
    [TemplateNode.lit "*Commit Message:*"] []

end SlackNotifier
